import Mathlib

/-!
A verification development for the realdeal repository (deal-finding engine).

The JavaScript sources are shallowly embedded: JS numbers are modelled as
exact rationals (`ℚ`), optional / possibly-`undefined` fields as `Option`,
and JS truthiness tests (`if (x)`) as explicit `none` / zero checks.
`Array.prototype.sort` with a numeric comparator produces the unique
stable sorted permutation, which we model with `List.insertionSort`.
JS objects used as grow-only dictionaries (the market-data buckets of
`computeMarketData`) are modelled as functions from keys to the
accumulated bucket contents; this is extensionally the same lookup
behaviour, and both `median` and `trimmedMedian` are permutation
invariant (proved below), so bucket ordering is immaterial.
-/

namespace RealDeal

/-- Postal address of a listing (only the fields the modelled code reads). -/
structure Address where
  street : String
  zip : String
deriving DecidableEq, Repr

/-- `distressIndicators` sub-document (src/backend/models/Property.js). -/
structure DistressIndicators where
  isDelinquent : Bool
  isPreForeclosure : Bool
  hasTaxLien : Bool
  isAsIs : Bool
  equityPercent : Option ℚ
  priceDropPercent : Option ℚ
deriving DecidableEq, Repr

/-- A listing / property record flowing through the pipeline.  Fields not
read by any modelled function (photos, urls, description, …) are omitted. -/
structure Listing where
  address : Option Address
  price : Option ℚ
  sqft : Option ℚ
  propertyType : Option String
  listingStatus : Option String
  daysOnMarket : Option ℚ
  distressIndicators : Option DistressIndicators
  zestimate : Option ℚ
  marketMedian : Option ℚ
  dealScore : Option ℕ
  valuationSource : Option String
  enriched : Bool
deriving DecidableEq, Repr

/-- Result of one ATTOM lookup (delinquency / pre-foreclosure source). -/
structure AttomResult where
  isDelinquent : Bool
  isPreForeclosure : Bool
  equityPercent : Option ℚ
  marketMedian : Option ℚ
  daysOnMarket : Option ℚ
deriving DecidableEq, Repr

/-- Result of one Datafiniti lookup (tax-lien source). -/
structure DatafinResult where
  hasTaxLien : Bool
  priceDropPercent : Option ℚ
deriving DecidableEq, Repr

/-- The `filters` object of a search request. -/
structure Filters where
  propertyType : Option String := none
  distressType : Option String := none
  minScore : Option ℚ := none
  minDiscount : Option ℚ := none
deriving DecidableEq, Repr

/-- JS truthiness for an optional number: `undefined`, `null` and `0` are falsy. -/
def jsTruthyQ (o : Option ℚ) : Bool :=
  match o with
  | some q => q ≠ 0
  | none => false

/-- JS truthiness for an optional string: `undefined` and the empty string are falsy. -/
def jsTruthyS (o : Option String) : Bool :=
  match o with
  | some s => s ≠ ""
  | none => false

/-- JS `o || y` for a dictionary lookup `o` and numeric fallback `y`:
a present but zero value still falls through to the fallback. -/
def jsOrQ (o : Option ℚ) (y : ℚ) : ℚ :=
  match o with
  | some v => if v = 0 then y else v
  | none => y

/-- Read a boolean distress flag through the optional-chaining access
`listing.distressIndicators?.flag` (missing document reads as false). -/
def flagD (l : Listing) (f : DistressIndicators → Bool) : Bool :=
  match l.distressIndicators with
  | some d => f d
  | none => false

/-- JS `listing.daysOnMarket > q` (`undefined > q` is false). -/
def domGt (l : Listing) (q : ℚ) : Bool :=
  match l.daysOnMarket with
  | some d => q < d
  | none => false

/-- `l.address?.zip || 'unknown'` (src/backend/routes/properties.js, computeMarketData). -/
def zipKey (l : Listing) : String :=
  match l.address with
  | some a => if a.zip = "" then "unknown" else a.zip
  | none => "unknown"

/-- `l.propertyType || 'unknown'`. -/
def typeKey (l : Listing) : String :=
  match l.propertyType with
  | some t => if t = "" then "unknown" else t
  | none => "unknown"

/-- The bucket key `zip + "|" + type`. -/
def zipTypeKey (l : Listing) : String :=
  zipKey l ++ "|" ++ typeKey l

/-- `median(arr)` (src/backend/routes/properties.js lines 226-231; the same
function appears as `calculateMedian` in the client scorer, part_001 lines
861-868): empty list gives 0, otherwise the middle element of the ascending
sort, averaging the two middle elements for an even count. -/
def median (arr : List ℚ) : ℚ :=
  if arr = [] then 0
  else if arr.length % 2 = 0 then
    ((List.insertionSort (· ≤ ·) arr).getD (arr.length / 2 - 1) 0 +
      (List.insertionSort (· ≤ ·) arr).getD (arr.length / 2) 0) / 2
  else (List.insertionSort (· ≤ ·) arr).getD (arr.length / 2) 0

/-- `trimmedMedian(arr)` (src/backend/routes/properties.js lines 234-239 and
part_001 lines 870-875): fewer than 5 samples gives the plain median,
otherwise the median after dropping `Math.floor(0.15 * n)` samples from each
end of the ascending sort.  `Math.floor(n * 0.15)` computes `⌊3n/20⌋` exactly
for every list length `n` (the double nearest 0.15 times any such `n` rounds
to the exact product), embedded here as natural division `3 * n / 20`. -/
def trimmedMedian (arr : List ℚ) : ℚ :=
  if arr.length < 5 then median arr
  else
    median (((List.insertionSort (· ≤ ·) arr).drop (3 * arr.length / 20)).take
      (arr.length - 3 * arr.length / 20 - 3 * arr.length / 20))

/-- `isZestimateReliable(zestimate, listing)` (src/backend/routes/properties.js
lines 242-253; identical logic in part_001 lines 877-883):
`!z || z <= 0` rejects, `!price || price <= 0` rejects, ratio outside
[0.4, 2.5] rejects, and with a known positive floor area an implied
price-per-sqft above 2000 rejects. -/
def isZestimateReliable (zo : Option ℚ) (l : Listing) : Bool :=
  match zo with
  | none => false
  | some z =>
    if z ≤ 0 then false
    else
      match l.price with
      | none => false
      | some p =>
        if p ≤ 0 then false
        else
          let ratio := z / p
          if 5/2 < ratio ∨ ratio < 2/5 then false
          else
            match l.sqft with
            | some s => if 0 < s then decide (z / s ≤ 2000) else true
            | none => true

/-- The `$ / sqft` contribution a listing makes to the ppsf buckets of
`computeMarketData`: present only when `price` is truthy and positive and
`sqft` is truthy and positive. -/
def ppsfContrib (l : Listing) : Option ℚ :=
  match l.price, l.sqft with
  | some p, some s => if 0 < p ∧ 0 < s then some (p / s) else none
  | _, _ => none

/-- The raw-price contribution a listing makes to the price buckets:
present only when `price` is truthy and positive. -/
def priceContrib (l : Listing) : Option ℚ :=
  match l.price with
  | some p => if 0 < p then some p else none
  | none => none

/-- The ppsf bucket of key `k` under key function `f` over the working set:
exactly the values the JS loop pushes into `ppsf_zipType[k]` / `ppsf_zip[k]`. -/
def ppsfBucketBy (L : List Listing) (f : Listing → String) (k : String) : List ℚ :=
  L.filterMap (fun l => if f l = k then ppsfContrib l else none)

/-- The raw-price bucket of key `k` under key function `f`. -/
def priceBucketBy (L : List Listing) (f : Listing → String) (k : String) : List ℚ :=
  L.filterMap (fun l => if f l = k then priceContrib l else none)

/-- The `MarketDataSnapshot`: four keyed trimmed-median maps plus two
area-wide scalars.  Dictionary maps are modelled as functions returning
`none` for an absent key. -/
structure MarketData where
  ppsfMedians_zipType : String → Option ℚ
  ppsfMedians_zip : String → Option ℚ
  areaPpsfMedian : ℚ
  priceMedians_zipType : String → Option ℚ
  priceMedians_zip : String → Option ℚ
  areaPriceMedian : ℚ

/-- `computeMarketData(listings)` (src/backend/routes/properties.js lines
259-316; identical logic in part_001 lines 889-943).  A zip+type or zip
ppsf median and a zip+type price median are emitted only for buckets with
at least `MIN_SAMPLES = 3` samples; the zip price median is emitted for any
non-empty bucket; the two area-wide scalars are trimmed medians over all
ppsf contributions and all positive prices.  (`Object.values(..).flat()`
reorders the ppsf values relative to listing order, which is immaterial:
`trimmedMedian` is permutation invariant, see `trimmedMedian_perm`.) -/
def computeMarketData (L : List Listing) : MarketData where
  ppsfMedians_zipType := fun k =>
    let vs := ppsfBucketBy L zipTypeKey k
    if 3 ≤ vs.length then some (trimmedMedian vs) else none
  ppsfMedians_zip := fun k =>
    let vs := ppsfBucketBy L zipKey k
    if 3 ≤ vs.length then some (trimmedMedian vs) else none
  areaPpsfMedian := trimmedMedian (L.filterMap ppsfContrib)
  priceMedians_zipType := fun k =>
    let vs := priceBucketBy L zipTypeKey k
    if 3 ≤ vs.length then some (trimmedMedian vs) else none
  priceMedians_zip := fun k =>
    let vs := priceBucketBy L zipKey k
    if vs = [] then none else some (trimmedMedian vs)
  areaPriceMedian := trimmedMedian (L.filterMap priceContrib)

/-- The ppsf lookup chain
`ppsfMedians_zipType[key] || ppsfMedians_zip[zip] || areaPpsfMedian`
(the `const ppsf` local of both estimators). -/
def ppsfChain (md : MarketData) (l : Listing) : ℚ :=
  jsOrQ (md.ppsfMedians_zipType (zipTypeKey l))
    (jsOrQ (md.ppsfMedians_zip (zipKey l)) md.areaPpsfMedian)

/-- The raw-price lookup chain
`priceMedians_zipType[key] || priceMedians_zip[zip] || areaPriceMedian || 0`
(the final `|| 0` is the identity on a numeric value). -/
def priceChain (md : MarketData) (l : Listing) : ℚ :=
  jsOrQ (md.priceMedians_zipType (zipTypeKey l))
    (jsOrQ (md.priceMedians_zip (zipKey l)) md.areaPriceMedian)

/-- `Math.round(ppsf * sqft)` — the size-adjusted density estimate. -/
def ppsfEstimate (md : MarketData) (l : Listing) (s : ℚ) : ℚ :=
  ((round (ppsfChain md l * s) : ℤ) : ℚ)

/-- `estimateMarketValue(listing, marketData)` — the backend estimator
(src/backend/routes/properties.js lines 322-346): a reliable zestimate is
returned directly; otherwise with a known positive floor area and a positive
ppsf median chain the rounded `ppsf × sqft` estimate is returned; otherwise
the raw-price median fallback chain. -/
def estimateMarketValue (l : Listing) (md : MarketData) : ℚ :=
  if isZestimateReliable l.zestimate l then l.zestimate.getD 0
  else
    match l.sqft with
    | some s =>
      if 0 < s then
        if 0 < ppsfChain md l then ppsfEstimate md l s
        else priceChain md l
      else priceChain md l
    | none => priceChain md l

namespace ClientScorer

/-- `estimateMarketValue(property, marketData)` — the client-side estimator
(src/unnamed/part_001 lines 949-984).  Unlike the backend variant it
precomputes the raw-price median and cross-validates the ppsf estimate
against it: `divergence = ppsfEstimate / priceMedian`; an extreme divergence
(`> 3` or `< 0.25`) discards the ppsf estimate in favour of the price
median, a moderate one (`> 1.5` or `< 0.5`) returns the rounded 70/30 blend
`0.7 × priceMedian + 0.3 × ppsfEstimate`, otherwise the ppsf estimate is
returned unmodified. -/
def estimateMarketValue (l : Listing) (md : MarketData) : ℚ :=
  if isZestimateReliable l.zestimate l then l.zestimate.getD 0
  else
    match l.sqft with
    | some s =>
      if 0 < s then
        if 0 < ppsfChain md l then
          if 0 < priceChain md l then
            if 3 < ppsfEstimate md l s / priceChain md l ∨
                ppsfEstimate md l s / priceChain md l < 1/4 then
              priceChain md l
            else if 3/2 < ppsfEstimate md l s / priceChain md l ∨
                ppsfEstimate md l s / priceChain md l < 1/2 then
              ((round (7/10 * priceChain md l + 3/10 * ppsfEstimate md l s) : ℤ) : ℚ)
            else ppsfEstimate md l s
          else ppsfEstimate md l s
        else priceChain md l
      else priceChain md l
    | none => priceChain md l

end ClientScorer

/-- `scoreDeal(property)` (src/backend/utils/dealScorer.js lines 11-47; the
client mirror `scoreDealClient` of part_001 lines 986-1009 is identical with
`overrideMedian` absent).  The price component runs only when
`property.price && property.marketMedian && property.marketMedian > 0`,
i.e. the price is truthy (non-zero, possibly negative) and the median is
positive. -/
def scoreDeal (p : Listing) : ℕ :=
  let priceComponent : ℕ :=
    match p.price, p.marketMedian with
    | some pr, some mm =>
      if pr ≠ 0 ∧ 0 < mm then
        let ratio := pr / mm
        if ratio < 3/4 then 40
        else if ratio < 4/5 then 25
        else if ratio < 17/20 then 15
        else 0
      else 0
    | _, _ => 0
  let score := priceComponent
  let score := score + (if flagD p (·.isDelinquent) then 30 else 0)
  let score := score + (if domGt p 60 then 10 else 0)
  let score := score + (if flagD p (·.hasTaxLien) then 10 else 0)
  let score := score + (if flagD p (·.isAsIs) then 10 else 0)
  min score 100

/-- The deal scorer exactly as claim C4 words it: the price component is
"skipped entirely when price or marketMedian is missing or non-positive".
This is the claim's formula, written for comparison with `scoreDeal`
(the source skips only a missing or zero price, not a negative one). -/
def scoreDealC4Spec (p : Listing) : ℕ :=
  let priceComponent : ℕ :=
    match p.price, p.marketMedian with
    | some pr, some mm =>
      if 0 < pr ∧ 0 < mm then
        let ratio := pr / mm
        if ratio < 3/4 then 40
        else if ratio < 4/5 then 25
        else if ratio < 17/20 then 15
        else 0
      else 0
    | _, _ => 0
  min (priceComponent + (if flagD p (·.isDelinquent) then 30 else 0)
    + (if domGt p 60 then 10 else 0) + (if flagD p (·.hasTaxLien) then 10 else 0)
    + (if flagD p (·.isAsIs) then 10 else 0)) 100

/-- `isWorthEnriching(property)` (src/backend/services/enrichmentService.js
lines 15-27). -/
def isWorthEnriching (p : Listing) : Bool :=
  flagD p (·.isPreForeclosure) ||
  flagD p (·.isAsIs) ||
  (match p.price, p.marketMedian with
   | some pr, some mm => decide (pr ≠ 0) && decide (mm ≠ 0) && decide (pr < mm * (9/10))
   | _, _ => false) ||
  domGt p 45 ||
  (match p.distressIndicators with
   | some d =>
     match d.priceDropPercent with
     | some pd => decide (10 < pd)
     | none => false
   | none => false)

/-- The distress-flag merge performed by one enrichment step
(src/backend/services/enrichmentService.js lines 128-135 in `enrichBatch`;
lines 67-81 in `enrichDeal` build the identical object):
each boolean flag is the logical OR of the freshly fetched flag and the
pre-existing flag (`isAsIs` has no external source and keeps its old value),
while `equityPercent` and `priceDropPercent` are overwritten. -/
def mergeDistress (attom : AttomResult) (datafin : DatafinResult)
    (old : Option DistressIndicators) : DistressIndicators where
  isDelinquent := attom.isDelinquent ||
    (match old with | some d => d.isDelinquent | none => false)
  isPreForeclosure := attom.isPreForeclosure ||
    (match old with | some d => d.isPreForeclosure | none => false)
  hasTaxLien := datafin.hasTaxLien ||
    (match old with | some d => d.hasTaxLien | none => false)
  isAsIs := (match old with | some d => d.isAsIs | none => false)
  equityPercent := attom.equityPercent
  priceDropPercent := some (match datafin.priceDropPercent with
    | some v => if v = 0 then 0 else v
    | none => 0)

/-- The four boolean distress flags, as a tuple. -/
def flagsOf (d : DistressIndicators) : Bool × Bool × Bool × Bool :=
  (d.isDelinquent, d.isPreForeclosure, d.hasTaxLien, d.isAsIs)

/-- One iteration of the phase-3 loop of `POST /search`
(src/backend/routes/properties.js lines 408-442):
apply the delinquent / taxLien distress filters, recompute `dealScore`,
apply the `minScore` and `minDiscount` filters, then persist exactly when
`dealScore > 50`.  Returns `none` when the listing is filtered out, and
otherwise the rescored listing together with whether it was saved. -/
def processListing (f : Filters) (l : Listing) : Option (Listing × Bool) :=
  if f.distressType = some "delinquent" ∧ ¬flagD l (·.isDelinquent) then none
  else if f.distressType = some "taxLien" ∧ ¬flagD l (·.hasTaxLien) then none
  else
    let score := scoreDeal l
    if jsTruthyQ f.minScore ∧ (score : ℚ) < f.minScore.getD 0 then none
    else if jsTruthyQ f.minDiscount ∧ jsTruthyQ l.price ∧ jsTruthyQ l.marketMedian ∧
        0 < l.marketMedian.getD 0 ∧
        (l.marketMedian.getD 0 - l.price.getD 0) / l.marketMedian.getD 0 * 100
          < f.minDiscount.getD 0 then none
    else some ({l with dealScore := some score}, 50 < score)

/-- The save loop of `runPipeline` (src/unnamed/part_004 lines 52-79 and
src/backend/services/pipeline.js): every enriched property with
`dealScore > 50` is upserted, all others are skipped. -/
def pipelineSaves (enriched : List Listing) : List Listing :=
  enriched.filter (fun p => 50 < p.dealScore.getD 0)

/-- Modelled from the spec: the persistence-worthiness gate
`isWorthSaving(listing)` described in §4.5 — `dealScore > 50`, and a
valuation that is still only an unverified statistical estimate must also
satisfy `price / estimatedValue ≥ 0.4`.  No such function exists anywhere in
the source: both save sites gate on `dealScore > 50` alone.  The verified
tags are the externally derived sources of `computeValuationMeta`
(src/backend/utils/dealScorer.js lines 53-71). -/
def isWorthSavingSpec (l : Listing) : Bool :=
  let verified := l.valuationSource = some "zillow_per_property" ||
    l.valuationSource = some "zillow_search" ||
    l.valuationSource = some "zillow+rentcast" ||
    l.valuationSource = some "rentcast"
  decide (50 < scoreDeal l) &&
    (verified || decide ((2/5 : ℚ) ≤ l.price.getD 0 / l.marketMedian.getD 0))

/-- Pre-fetch filtering of one raw listing (src/backend/routes/properties.js
lines 371-381): property-type, pre-foreclosure and as-is filters that run
before any scoring. -/
def prefilterListing (f : Filters) (l : Listing) : Bool :=
  (if jsTruthyS f.propertyType then l.propertyType = f.propertyType else true) &&
  (if f.distressType = some "preForeclosure" then l.listingStatus = some "preForeclosure" else true) &&
  (if f.distressType = some "asIs" then flagD l (·.isAsIs) else true)

/-- `hasActiveFilter` of the fetch loop (line 385). -/
def hasActiveFilter (f : Filters) : Bool :=
  jsTruthyS f.propertyType || jsTruthyS f.distressType ||
  jsTruthyQ f.minScore || jsTruthyQ f.minDiscount

/-- The paged fetch loop of `POST /search` (lines 362-388): up to
`MAX_PAGES = 3` calls to `searchByCoordinates` (modelled by `pages`),
stopping early when no filter is active or `MIN_RESULTS = 20` listings were
collected or the source reports no more pages.  Returns the collected
listings and the number of fetch calls issued. -/
def fetchGo (pages : ℕ → List Listing × Bool) (f : Filters) :
    ℕ → ℕ → List Listing → ℕ → List Listing × ℕ
  | 0, _, acc, calls => (acc, calls)
  | fuel + 1, page, acc, calls =>
    let (raw, more) := pages page
    let acc2 := acc ++ raw.filter (prefilterListing f)
    let calls2 := calls + 1
    if !hasActiveFilter f || 20 ≤ acc2.length then (acc2, calls2)
    else if !more then (acc2, calls2)
    else fetchGo pages f fuel (page + 1) acc2 calls2

/-- Everything observable about one `POST /search` run. -/
structure SearchOutcome where
  error : Option String
  fetchCalls : ℕ
  enrichCandidates : List Listing
  saved : List Listing
  results : List Listing
  areaMedian : ℚ
deriving Repr

/-- Sort key of the final `results.sort((a, b) => (b.dealScore || 0) - (a.dealScore || 0))`. -/
def scoreKey (l : Listing) : ℕ := l.dealScore.getD 0

/-- `a` may precede `b` in the final result ordering: descending `dealScore`. -/
def scoreGe (a b : Listing) : Prop := scoreKey b ≤ scoreKey a

instance : DecidableRel scoreGe := fun a b =>
  inferInstanceAs (Decidable (scoreKey b ≤ scoreKey a))

instance : IsTotal Listing scoreGe :=
  ⟨fun a b => le_total (scoreKey b) (scoreKey a)⟩

instance : IsTrans Listing scoreGe :=
  ⟨fun _ _ _ h1 h2 => le_trans h2 h1⟩

/-- The final descending sort of the search results. -/
def sortByScoreDesc (ls : List Listing) : List Listing :=
  List.insertionSort scoreGe ls

/-- The `POST /api/properties/search` handler
(src/backend/routes/properties.js lines 349-452; the SSE variant
`GET /search/stream`, lines 455-577, runs the identical guard, fetch loop,
estimation phase, enrichment gate and filtering loop and differs only in
how the response is delivered).  `enrich` abstracts the in-place effect of
`enrichBatch` on the listing working set; it is consulted only when a
delinquent or taxLien distress filter makes `needsEnrichment` true.
A missing (or zero, JS-falsy) coordinate returns the 400 error before
anything else runs. -/
def postSearch (enrich : List Listing → List Listing)
    (pages : ℕ → List Listing × Bool)
    (latitude longitude : Option ℚ) (filtersOpt : Option Filters) : SearchOutcome :=
  if ¬jsTruthyQ latitude ∨ ¬jsTruthyQ longitude then
    { error := some "latitude and longitude are required", fetchCalls := 0,
      enrichCandidates := [], saved := [], results := [], areaMedian := 0 }
  else
    let f := filtersOpt.getD {}
    let needsEnrichment := f.distressType = some "delinquent" ∨ f.distressType = some "taxLien"
    let fetched := fetchGo pages f 3 1 [] 0
    let allListings := fetched.1
    let md := computeMarketData allListings
    let listings1 := allListings.map
      (fun l => {l with marketMedian := some (estimateMarketValue l md)})
    let candidates := if needsEnrichment then
        listings1.filter (fun l => !l.enriched && isWorthEnriching l)
      else []
    let listings2 := if needsEnrichment then enrich listings1 else listings1
    let processed := listings2.filterMap (processListing f)
    { error := none
      fetchCalls := fetched.2
      enrichCandidates := candidates
      saved := (processed.filter (·.2)).map Prod.fst
      results := sortByScoreDesc (processed.map Prod.fst)
      areaMedian := md.areaPriceMedian }

/-- The persisted state a `Property` document carries for the alert hook
(src/backend/models/Property.js): the deal score and the `alertSent` flag. -/
structure PropertyDoc where
  dealScore : ℕ
  alertSent : Bool
deriving DecidableEq, Repr

/-- The `post('save')` / `post('findOneAndUpdate')` hook
(src/backend/models/Property.js lines 69-85): when `dealScore > 80` and
`alertSent` is still false, the alert fires and `alertSent` is set
immediately afterwards.  Returns the updated document and whether the
alert fired. -/
def postSaveHook (doc : PropertyDoc) : PropertyDoc × Bool :=
  if 80 < doc.dealScore ∧ doc.alertSent = false then
    ({doc with alertSent := true}, true)
  else (doc, false)

/-- One pipeline upsert of the document: the update rewrites `dealScore`
(listings carry no `alertSent` field, so that flag persists), then the
post hook runs. -/
def applySave (st : PropertyDoc) (newScore : ℕ) : PropertyDoc × Bool :=
  postSaveHook {st with dealScore := newScore}

/-- A sequence of upserts of the same record; counts the alerts fired. -/
def runSaves : PropertyDoc → List ℕ → PropertyDoc × ℕ
  | st, [] => (st, 0)
  | st, s :: rest =>
    let step := applySave st s
    let tail := runSaves step.1 rest
    (tail.1, (if step.2 then 1 else 0) + tail.2)

/-- Data-sanity predicate used by the end-to-end claim: a listing's own
price-per-sqft signal is not degenerate (at least half a currency unit per
area unit, with at least one area unit). -/
def ppsfSane (l : Listing) : Prop :=
  ∀ p s, l.price = some p → 0 < p → l.sqft = some s → 0 < s →
    1 ≤ s ∧ 1/2 ≤ p / s

/-- The counterexample listing of claim C1: deal score 80 (price ratio 0.3
gives 40, delinquency 30, tax lien 10), valuation still the unverified
`ppsf_median` statistical source. -/
def worthSavingCex : Listing where
  address := some ⟨"123 Main St", "33131"⟩
  price := some 60000
  sqft := none
  propertyType := some "condo"
  listingStatus := some "forSale"
  daysOnMarket := some 12
  distressIndicators := some
    { isDelinquent := true, isPreForeclosure := false, hasTaxLien := true,
      isAsIs := false, equityPercent := none, priceDropPercent := none }
  zestimate := none
  marketMedian := some 200000
  dealScore := some 80
  valuationSource := some "ppsf_median"
  enriched := true

/-- The counterexample listing of claim C4: a negative price is JS-truthy,
so the source does not skip the price component for it. -/
def negPriceCex : Listing where
  address := some ⟨"9 Odd St", "33131"⟩
  price := some (-1)
  sqft := none
  propertyType := none
  listingStatus := none
  daysOnMarket := none
  distressIndicators := none
  zestimate := none
  marketMedian := some 100000
  dealScore := none
  valuationSource := none
  enriched := false

/-- Listing with price ratio 0.5 and every bonus flag set: the full
combination of claim C4 (40 + 30 + 10 + 10 + 10). -/
def fullComboCex : Listing where
  address := some ⟨"7 Combo Ave", "33131"⟩
  price := some 50000
  sqft := none
  propertyType := none
  listingStatus := none
  daysOnMarket := some 90
  distressIndicators := some
    { isDelinquent := true, isPreForeclosure := false, hasTaxLien := true,
      isAsIs := true, equityPercent := none, priceDropPercent := none }
  zestimate := none
  marketMedian := some 100000
  dealScore := none
  valuationSource := none
  enriched := false

/-- Concrete market snapshot for evaluating the divergence rules of the
client estimator: area ppsf median 600, area price median 150000, no
zip-level buckets. -/
def divergenceMarket : MarketData where
  ppsfMedians_zipType := fun _ => none
  ppsfMedians_zip := fun _ => none
  areaPpsfMedian := 600
  priceMedians_zipType := fun _ => none
  priceMedians_zip := fun _ => none
  areaPriceMedian := 150000

/-- Concrete listing for the divergence rules: 1000 sqft and no zestimate,
so the client estimator computes `ppsfEstimate = 600 × 1000 = 600000`
against `priceMedian = 150000` (divergence 4). -/
def divergenceListing : Listing where
  address := none
  price := some 100000
  sqft := some 1000
  propertyType := none
  listingStatus := none
  daysOnMarket := none
  distressIndicators := none
  zestimate := none
  marketMedian := none
  dealScore := none
  valuationSource := none
  enriched := false

/-- Concrete listing for the external-point (zestimate) check: the external
estimate equals the price (ratio 1.0) and implies 100 per sqft. -/
def zestimateListing : Listing where
  address := none
  price := some 100000
  sqft := some 1000
  propertyType := none
  listingStatus := none
  daysOnMarket := none
  distressIndicators := none
  zestimate := some 100000
  marketMedian := none
  dealScore := none
  valuationSource := none
  enriched := false

/-- Concrete listing for the end-to-end search run: positive price, no
floor area, no distress data. -/
def plainListing : Listing where
  address := some ⟨"1 Plain St", "33131"⟩
  price := some 100000
  sqft := none
  propertyType := some "condo"
  listingStatus := some "forSale"
  daysOnMarket := some 5
  distressIndicators := none
  zestimate := none
  marketMedian := none
  dealScore := none
  valuationSource := none
  enriched := false

end RealDeal

namespace RealDeal

/-! ### Permutation and order facts about the statistics primitives -/

/-- `median` only depends on the multiset of samples. -/
theorem median_perm {l1 l2 : List ℚ} (h : l1.Perm l2) : median l1 = median l2 := by
  have hsort : List.insertionSort (· ≤ ·) l1 = List.insertionSort (· ≤ ·) l2 :=
    List.eq_of_perm_of_sorted
      ((List.perm_insertionSort _ l1).trans (h.trans (List.perm_insertionSort _ l2).symm))
      (List.sorted_insertionSort _ l1) (List.sorted_insertionSort _ l2)
  rcases eq_or_ne l2 [] with h2 | h2
  · subst h2
    have h1 : l1 = [] := by simpa using h
    rw [h1]
  · have h1 : l1 ≠ [] := by
      intro h1
      subst h1
      exact h2 h.nil_eq.symm
    unfold median
    rw [hsort, h.length_eq, if_neg h1, if_neg h2]

/-- `trimmedMedian` only depends on the multiset of samples. -/
theorem trimmedMedian_perm {l1 l2 : List ℚ} (h : l1.Perm l2) :
    trimmedMedian l1 = trimmedMedian l2 := by
  have hsort : List.insertionSort (· ≤ ·) l1 = List.insertionSort (· ≤ ·) l2 :=
    List.eq_of_perm_of_sorted
      ((List.perm_insertionSort _ l1).trans (h.trans (List.perm_insertionSort _ l2).symm))
      (List.sorted_insertionSort _ l1) (List.sorted_insertionSort _ l2)
  unfold trimmedMedian
  rw [h.length_eq, hsort]
  split
  · exact median_perm h
  · rfl

/-- An element read with `getD` at an in-range index is a list member. -/
theorem getD_mem_of_lt {l : List ℚ} {n : ℕ} (h : n < l.length) : l.getD n 0 ∈ l := by
  rw [List.getD_eq_getElem?_getD, List.getElem?_eq_getElem h, Option.getD_some]
  exact List.getElem_mem h

/-- Every lower bound of the samples bounds the median from below. -/
theorem median_ge {c : ℚ} {vs : List ℚ} (hne : vs ≠ []) (h : ∀ x ∈ vs, c ≤ x) :
    c ≤ median vs := by
  unfold median
  rw [if_neg hne]
  have hlpos : 0 < vs.length := List.length_pos.mpr hne
  have hlen : (List.insertionSort (· ≤ ·) vs).length = vs.length :=
    (List.perm_insertionSort _ vs).length_eq
  have hmem : ∀ x ∈ List.insertionSort (· ≤ ·) vs, c ≤ x := fun x hx =>
    h x ((List.perm_insertionSort _ vs).subset hx)
  have hmid : vs.length / 2 < (List.insertionSort (· ≤ ·) vs).length := by
    rw [hlen]; exact Nat.div_lt_self hlpos (by norm_num)
  have h2 := hmem _ (getD_mem_of_lt hmid)
  split
  · have hmid1 : vs.length / 2 - 1 < (List.insertionSort (· ≤ ·) vs).length :=
      lt_of_le_of_lt (Nat.sub_le _ _) hmid
    have h1 := hmem _ (getD_mem_of_lt hmid1)
    linarith
  · exact h2

/-- A median of positive samples is positive. -/
theorem median_pos {vs : List ℚ} (hne : vs ≠ []) (h : ∀ x ∈ vs, 0 < x) :
    0 < median vs := by
  unfold median
  rw [if_neg hne]
  have hlpos : 0 < vs.length := List.length_pos.mpr hne
  have hlen : (List.insertionSort (· ≤ ·) vs).length = vs.length :=
    (List.perm_insertionSort _ vs).length_eq
  have hmem : ∀ x ∈ List.insertionSort (· ≤ ·) vs, 0 < x := fun x hx =>
    h x ((List.perm_insertionSort _ vs).subset hx)
  have hmid : vs.length / 2 < (List.insertionSort (· ≤ ·) vs).length := by
    rw [hlen]; exact Nat.div_lt_self hlpos (by norm_num)
  have h2 := hmem _ (getD_mem_of_lt hmid)
  split
  · have hmid1 : vs.length / 2 - 1 < (List.insertionSort (· ≤ ·) vs).length :=
      lt_of_le_of_lt (Nat.sub_le _ _) hmid
    have h1 := hmem _ (getD_mem_of_lt hmid1)
    linarith
  · exact h2

/-- The trim never consumes the whole sample list. -/
theorem trim_slice_ne_nil {vs : List ℚ} (h5 : ¬vs.length < 5) :
    ((List.insertionSort (· ≤ ·) vs).drop (3 * vs.length / 20)).take
      (vs.length - 3 * vs.length / 20 - 3 * vs.length / 20) ≠ [] := by
  have hlen : (List.insertionSort (· ≤ ·) vs).length = vs.length :=
    (List.perm_insertionSort _ vs).length_eq
  rw [← List.length_pos, List.length_take, List.length_drop, hlen]
  omega

/-- Every lower bound of the samples bounds the trimmed median from below. -/
theorem trimmedMedian_ge {c : ℚ} {vs : List ℚ} (hne : vs ≠ []) (h : ∀ x ∈ vs, c ≤ x) :
    c ≤ trimmedMedian vs := by
  unfold trimmedMedian
  split
  · exact median_ge hne h
  · next h5 =>
    exact median_ge (trim_slice_ne_nil h5) (fun x hx =>
      h x ((List.perm_insertionSort _ vs).subset
        (List.mem_of_mem_drop (List.mem_of_mem_take hx))))

/-- A trimmed median of positive samples is positive. -/
theorem trimmedMedian_pos {vs : List ℚ} (hne : vs ≠ []) (h : ∀ x ∈ vs, 0 < x) :
    0 < trimmedMedian vs := by
  unfold trimmedMedian
  split
  · exact median_pos hne h
  · next h5 =>
    exact median_pos (trim_slice_ne_nil h5) (fun x hx =>
      h x ((List.perm_insertionSort _ vs).subset
        (List.mem_of_mem_drop (List.mem_of_mem_take hx))))

/-- Appending a strict upper bound to a list sorts to the sort of the list
with the bound at the end. -/
theorem insertionSort_append_big {arr : List ℚ} {b : ℚ} (h : ∀ x ∈ arr, x < b) :
    List.insertionSort (· ≤ ·) (arr ++ [b]) = List.insertionSort (· ≤ ·) arr ++ [b] := by
  have hperm : List.Perm (List.insertionSort (· ≤ ·) (arr ++ [b]))
      (List.insertionSort (· ≤ ·) arr ++ [b]) :=
    (List.perm_insertionSort _ _).trans
      ((List.perm_insertionSort (· ≤ ·) arr).symm.append_right [b])
  have hs2 : List.Sorted (· ≤ ·) (List.insertionSort (· ≤ ·) arr ++ [b]) := by
    rw [List.Sorted, List.pairwise_append]
    refine ⟨List.sorted_insertionSort _ arr, List.pairwise_singleton _ _, ?_⟩
    intro x hx y hy
    rw [List.mem_singleton] at hy
    subst hy
    exact le_of_lt (h x ((List.perm_insertionSort _ arr).subset hx))
  exact List.eq_of_perm_of_sorted hperm (List.sorted_insertionSort _ _) hs2

/-- The median of a sorted ≥5-sample list with one strict upper bound
appended does not depend on the appended value. -/
theorem median_sorted_append_big {s : List ℚ} {b1 b2 : ℚ}
    (hs : List.Sorted (· ≤ ·) s) (h5 : 5 ≤ s.length)
    (hb1 : ∀ x ∈ s, x < b1) (hb2 : ∀ x ∈ s, x < b2) :
    median (s ++ [b1]) = median (s ++ [b2]) := by
  have key : ∀ b : ℚ, (∀ x ∈ s, x < b) →
      List.insertionSort (· ≤ ·) (s ++ [b]) = s ++ [b] := by
    intro b hb
    rw [insertionSort_append_big hb, hs.insertionSort_eq]
  have hne : ∀ b : ℚ, s ++ [b] ≠ [] := by simp
  have hlen : ∀ b : ℚ, (s ++ [b]).length = s.length + 1 := by simp
  have hmid : (s.length + 1) / 2 < s.length := by omega
  have hmid1 : (s.length + 1) / 2 - 1 < s.length := by omega
  unfold median
  rw [if_neg (hne b1), if_neg (hne b2), key b1 hb1, key b2 hb2, hlen, hlen]
  rcases Nat.even_or_odd (s.length + 1) with he | ho
  · rw [if_pos (Nat.even_iff.mp he), if_pos (Nat.even_iff.mp he)]
    rw [List.getD_append _ _ _ _ hmid1, List.getD_append _ _ _ _ hmid,
      List.getD_append _ _ _ _ hmid1, List.getD_append _ _ _ _ hmid]
  · have ho2 : (s.length + 1) % 2 = 1 := Nat.odd_iff.mp ho
    rw [if_neg (by omega : ¬(s.length + 1) % 2 = 0),
      if_neg (by omega : ¬(s.length + 1) % 2 = 0),
      List.getD_append _ _ _ _ hmid, List.getD_append _ _ _ _ hmid]

/-- Claim C3 (amended): on fewer than 5 samples `trimmedMedian` equals
`median`; on at least 5 samples, appending one extreme outlier (any value
strictly above every sample) produces a trimmed median that does not depend
on the outlier's magnitude — the outlier's value never enters the
computation — although it is not in general equal to
`trimmedMedian(values)` (see the counterexample). -/
theorem trimmedMedian_small_and_outlier_stable :
    (∀ arr : List ℚ, arr.length < 5 → trimmedMedian arr = median arr) ∧
    (∀ (arr : List ℚ) (b1 b2 : ℚ), 5 ≤ arr.length →
      (∀ x ∈ arr, x < b1) → (∀ x ∈ arr, x < b2) →
      trimmedMedian (arr ++ [b1]) = trimmedMedian (arr ++ [b2])) := by
  constructor
  · intro arr h
    unfold trimmedMedian
    rw [if_pos h]
  · intro arr b1 b2 h5 hb1 hb2
    have hsl : (List.insertionSort (· ≤ ·) arr).length = arr.length :=
      (List.perm_insertionSort _ arr).length_eq
    have hmem : ∀ x ∈ List.insertionSort (· ≤ ·) arr, x ∈ arr := fun x hx =>
      (List.perm_insertionSort _ arr).subset hx
    have hb1' : ∀ x ∈ List.insertionSort (· ≤ ·) arr, x < b1 :=
      fun x hx => hb1 x (hmem x hx)
    have hb2' : ∀ x ∈ List.insertionSort (· ≤ ·) arr, x < b2 :=
      fun x hx => hb2 x (hmem x hx)
    have hlen : ∀ b : ℚ, (arr ++ [b]).length = arr.length + 1 := by simp
    unfold trimmedMedian
    rw [hlen, hlen, if_neg (by omega : ¬arr.length + 1 < 5),
      if_neg (by omega : ¬arr.length + 1 < 5),
      insertionSort_append_big hb1, insertionSort_append_big hb2]
    by_cases h0 : 3 * (arr.length + 1) / 20 = 0
    · rw [h0]
      simp only [List.drop_zero, Nat.sub_zero]
      have hn : arr.length = 5 := by omega
      have htake : ∀ b : ℚ, (List.insertionSort (· ≤ ·) arr ++ [b]).take (arr.length + 1) =
          List.insertionSort (· ≤ ·) arr ++ [b] := by
        intro b
        apply List.take_of_length_le
        simp [hsl]
      rw [htake, htake]
      exact median_sorted_append_big (List.sorted_insertionSort _ arr)
        (by omega) hb1' hb2'
    · have h1 : 1 ≤ 3 * (arr.length + 1) / 20 := Nat.pos_of_ne_zero h0
      have hd : ∀ b : ℚ, (List.insertionSort (· ≤ ·) arr ++ [b]).drop
          (3 * (arr.length + 1) / 20) =
          (List.insertionSort (· ≤ ·) arr).drop (3 * (arr.length + 1) / 20) ++ [b] := by
        intro b
        exact List.drop_append_of_le_length (by rw [hsl]; omega)
      rw [hd, hd,
        List.take_append_of_le_length (by rw [List.length_drop, hsl]; omega),
        List.take_append_of_le_length (by rw [List.length_drop, hsl]; omega)]

/-- Claim C3 counterexample: on `[1,2,3,4,5]` (5 samples, trim count
`⌊0.15 × 6⌋ = 0` after appending) appending the extreme outlier 1000
changes the trimmed median from 3 to 3.5, so `trimmedMedian` is not
invariant under appending a single extreme outlier. -/
theorem trimmedMedian_outlier_cex :
    trimmedMedian [1, 2, 3, 4, 5] = 3 ∧
    trimmedMedian ([1, 2, 3, 4, 5] ++ [1000]) = 7/2 ∧
    trimmedMedian ([1, 2, 3, 4, 5] ++ [1000]) ≠ trimmedMedian [1, 2, 3, 4, 5] := by
  refine ⟨?_, ?_, ?_⟩ <;>
    norm_num [trimmedMedian, median, List.insertionSort, List.orderedInsert,
      List.cons_ne_nil]

/-- Witness for `trimmedMedian_small_and_outlier_stable` at concrete inputs:
`[10, 20]` has fewer than 5 samples, and appending either outlier 1000 or
1000000 to `[1, 2, 3, 4, 5, 6, 7]` gives the same trimmed median. -/
theorem trimmedMedian_small_and_outlier_stable_witness :
    trimmedMedian [10, 20] = median [10, 20] ∧
    trimmedMedian ([1, 2, 3, 4, 5, 6, 7] ++ [1000]) =
      trimmedMedian ([1, 2, 3, 4, 5, 6, 7] ++ [1000000]) :=
  ⟨trimmedMedian_small_and_outlier_stable.1 [10, 20] (by norm_num),
    trimmedMedian_small_and_outlier_stable.2 [1, 2, 3, 4, 5, 6, 7] 1000 1000000
      (by norm_num) (by norm_num) (by norm_num)⟩

/-! ### Value estimator -/

/-- Claim C5: for a listing carrying an external point estimate (and a
positive listing price), the reliability gate accepts exactly when the
ratio of the estimate to the price lies in [0.4, 2.5] and, whenever the
floor area is known and positive, the implied price-per-area does not
exceed 2000; and an accepted estimate is returned by the estimator
exactly, for every market snapshot. -/
theorem zestimate_returned_iff_plausible (l : Listing) (z p : ℚ)
    (hz : l.zestimate = some z) (hp : l.price = some p) (hppos : 0 < p) :
    (isZestimateReliable l.zestimate l = true ↔
      (2/5 ≤ z / p ∧ z / p ≤ 5/2 ∧ ∀ s, l.sqft = some s → 0 < s → z / s ≤ 2000)) ∧
    (isZestimateReliable l.zestimate l = true →
      ∀ md, estimateMarketValue l md = z) := by
  constructor
  · constructor
    · intro h
      rw [hz] at h
      simp only [isZestimateReliable, hp] at h
      split_ifs at h with h1 h2 h3
      push_neg at h3
      refine ⟨h3.2, h3.1, ?_⟩
      intro s hs hspos
      rw [hs] at h
      have h' : (if 0 < s then decide (z / s ≤ 2000) else true) = true := h
      rw [if_pos hspos] at h'
      exact of_decide_eq_true h'
    · rintro ⟨h1, h2, h3⟩
      have hq : 2/5 * p ≤ z := (le_div_iff₀ hppos).mp h1
      have hzpos : ¬z ≤ 0 := by nlinarith
      rw [hz]
      simp only [isZestimateReliable, hp]
      rw [if_neg hzpos, if_neg (not_le.mpr hppos),
        if_neg (by push_neg; exact ⟨not_lt.mp (not_lt.mpr h2), not_lt.mp (not_lt.mpr h1)⟩ :
          ¬(5/2 < z / p ∨ z / p < 2/5))]
      cases hs : l.sqft with
      | none => rfl
      | some s =>
        show (if 0 < s then decide (z / s ≤ 2000) else true) = true
        by_cases hspos : 0 < s
        · rw [if_pos hspos]
          exact decide_eq_true (h3 s hs hspos)
        · rw [if_neg hspos]
  · intro h md
    unfold estimateMarketValue
    rw [if_pos h, hz, Option.getD_some]

/-- Witness for `zestimate_returned_iff_plausible`: the listing with price
100000, external estimate 100000 (ratio 1.0) and 1000 sqft (implied 100
per sqft, under the 2000 ceiling) is accepted and returned exactly. -/
theorem zestimate_returned_iff_plausible_witness :
    isZestimateReliable zestimateListing.zestimate zestimateListing = true ∧
    estimateMarketValue zestimateListing divergenceMarket = 100000 := by
  have h := zestimate_returned_iff_plausible zestimateListing 100000 100000
    rfl rfl (by norm_num)
  have hg : isZestimateReliable zestimateListing.zestimate zestimateListing = true := by
    apply h.1.mpr
    refine ⟨by norm_num, by norm_num, ?_⟩
    intro s hs hspos
    simp only [zestimateListing, Option.some.injEq] at hs
    subst hs
    norm_num
  exact ⟨hg, h.2 hg divergenceMarket⟩

/-- Claim C2: with the external check failed, a known positive floor area,
a positive ppsf median chain and a positive raw-price median chain, the
client estimator returns the price median on extreme divergence (`> 3` or
`< 0.25`), the rounded 70/30 blend on moderate divergence (`> 1.5` or
`< 0.5`), and the ppsf estimate unmodified otherwise. -/
theorem estimate_divergence_rules (l : Listing) (md : MarketData) (s : ℚ)
    (hz : isZestimateReliable l.zestimate l = false)
    (hs : l.sqft = some s) (hspos : 0 < s)
    (hppsf : 0 < ppsfChain md l) (hpm : 0 < priceChain md l) :
    ClientScorer.estimateMarketValue l md =
      (if 3 < ppsfEstimate md l s / priceChain md l ∨
          ppsfEstimate md l s / priceChain md l < 1/4 then
        priceChain md l
      else if 3/2 < ppsfEstimate md l s / priceChain md l ∨
          ppsfEstimate md l s / priceChain md l < 1/2 then
        ((round (7/10 * priceChain md l + 3/10 * ppsfEstimate md l s) : ℤ) : ℚ)
      else ppsfEstimate md l s) := by
  unfold ClientScorer.estimateMarketValue
  rw [hz]
  simp only [Bool.false_eq_true, if_false, hs]
  rw [if_pos hspos, if_pos hppsf, if_pos hpm]

/-- Witness for `estimate_divergence_rules`: the spec's extreme case —
ppsf estimate 600 × 1000 = 600000 against price median 150000 (divergence
4 > 3) returns exactly 150000. -/
theorem estimate_divergence_rules_witness :
    ClientScorer.estimateMarketValue divergenceListing divergenceMarket = 150000 := by
  have h := estimate_divergence_rules divergenceListing divergenceMarket 1000
    rfl rfl (by norm_num)
    (by norm_num [ppsfChain, jsOrQ, divergenceMarket])
    (by norm_num [priceChain, jsOrQ, divergenceMarket])
  rw [h]
  norm_num [ppsfEstimate, ppsfChain, priceChain, jsOrQ, divergenceMarket]

/-! ### Deal scorer -/

/-- Claim C4 (amended): `scoreDeal` returns `min(sum, 100)` where the price
component contributes +40 / +25 / +15 / +0 by the ratio thresholds, is
skipped entirely when the price is missing *or zero* or the market median is
missing or non-positive (the source's truthiness guard does not skip a
*negative* price — see the counterexample), and the four bonuses are
+30 delinquent, +10 days-on-market > 60, +10 tax lien, +10 as-is; the full
combination (ratio < 0.75 and all four bonuses) is exactly 100. -/
theorem scoreDeal_decomposition (p : Listing) :
    scoreDeal p =
      min ((match p.price, p.marketMedian with
        | some pr, some mm =>
          if pr ≠ 0 ∧ 0 < mm then
            if pr / mm < 3/4 then 40
            else if pr / mm < 4/5 then 25
            else if pr / mm < 17/20 then 15
            else 0
          else 0
        | _, _ => 0)
        + (if flagD p (·.isDelinquent) then 30 else 0)
        + (if domGt p 60 then 10 else 0)
        + (if flagD p (·.hasTaxLien) then 10 else 0)
        + (if flagD p (·.isAsIs) then 10 else 0)) 100 ∧
    (∀ pr mm, p.price = some pr → p.marketMedian = some mm → pr ≠ 0 → 0 < mm →
      pr / mm < 3/4 → flagD p (·.isDelinquent) = true → domGt p 60 = true →
      flagD p (·.hasTaxLien) = true → flagD p (·.isAsIs) = true →
      scoreDeal p = 100) := by
  constructor
  · rfl
  · intro pr mm hp hm hne hpos hr hdel hdom hlien hasis
    simp only [scoreDeal, hp, hm, hdel, hdom, hlien, hasis]
    rw [if_pos (And.intro hne hpos), if_pos hr]
    norm_num

/-- Claim C4 counterexample: a listing with price −1 and market median
100000 has a JS-truthy price, so the source computes the ratio −0.00001 and
awards the +40 price component; the claim's formula (skip when the price is
non-positive) awards 0.  `scoreDealC4Spec` is the claim's own formula. -/
theorem scoreDeal_negative_price_cex :
    scoreDeal negPriceCex = 40 ∧ scoreDealC4Spec negPriceCex = 0 := by
  constructor <;>
    norm_num [scoreDeal, scoreDealC4Spec, negPriceCex, flagD, domGt]

/-- Witness for `scoreDeal_decomposition`: the full combination listing
(price ratio 0.5, delinquent, tax lien, as-is, 90 days on market) scores
exactly 100. -/
theorem scoreDeal_decomposition_witness : scoreDeal fullComboCex = 100 :=
  (scoreDeal_decomposition fullComboCex).2 50000 100000 rfl rfl
    (by norm_num) (by norm_num) (by norm_num) rfl
    (by norm_num [domGt, fullComboCex]) rfl rfl

/-- Claim C9: `scoreDeal` is total and always lands in [0, 100] (it returns
a natural number, so the lower bound is by type), for every listing
including those with missing or zero price, missing / zero / negative
market median, or no distress document; and when the denominator is missing
or non-positive, or the price is missing or zero, the score is exactly the
bonus sum clamped at 100 — the price-ratio division never influences the
result there. -/
theorem scoreDeal_total_bounded (p : Listing) :
    scoreDeal p ≤ 100 ∧
    ((p.marketMedian = none ∨ (∃ mm, p.marketMedian = some mm ∧ mm ≤ 0) ∨
        p.price = none ∨ p.price = some 0) →
      scoreDeal p =
        min ((if flagD p (·.isDelinquent) then 30 else 0)
          + (if domGt p 60 then 10 else 0)
          + (if flagD p (·.hasTaxLien) then 10 else 0)
          + (if flagD p (·.isAsIs) then 10 else 0)) 100) := by
  constructor
  · unfold scoreDeal
    exact min_le_right _ _
  · intro h
    rcases h with h | ⟨mm, hm, hle⟩ | h | h
    · cases hp : p.price <;> simp [scoreDeal, h, hp]
    · cases hp : p.price with
      | none => simp [scoreDeal, hm, hp]
      | some pr =>
        simp only [scoreDeal, hm, hp]
        rw [if_neg (show ¬(pr ≠ 0 ∧ 0 < mm) from fun hc => absurd hc.2 (not_lt.mpr hle))]
        simp
    · cases hm : p.marketMedian <;> simp [scoreDeal, h, hm]
    · cases hm : p.marketMedian with
      | none => simp [scoreDeal, h, hm]
      | some mm =>
        simp only [scoreDeal, h, hm]
        rw [if_neg (show ¬((0 : ℚ) ≠ 0 ∧ 0 < mm) from fun hc => hc.1 rfl)]
        simp

/-- Witness for `scoreDeal_total_bounded`: a listing with no market median
is scored from its flags alone. -/
theorem scoreDeal_total_bounded_witness :
    scoreDeal negPriceCex ≤ 100 ∧ scoreDeal plainListing = min 0 100 := by
  constructor
  · exact (scoreDeal_total_bounded negPriceCex).1
  · have h := (scoreDeal_total_bounded plainListing).2 (Or.inl rfl)
    simpa [plainListing, flagD, domGt] using h

/-! ### Distress-flag merging -/

/-- Claim C6: each of the four boolean distress flags produced by an
enrichment step is the logical OR of the externally fetched flag and the
pre-existing flag (`isAsIs` has no external source, so its external
contribution is `false`); consequently a flag that is true before the step
is still true afterward, and the four flags produced by two successive
merges do not depend on the order of the merges. -/
theorem distress_merge_is_or (a : AttomResult) (d : DatafinResult)
    (old : DistressIndicators) :
    ((mergeDistress a d (some old)).isDelinquent = (a.isDelinquent || old.isDelinquent) ∧
      (mergeDistress a d (some old)).isPreForeclosure
        = (a.isPreForeclosure || old.isPreForeclosure) ∧
      (mergeDistress a d (some old)).hasTaxLien = (d.hasTaxLien || old.hasTaxLien) ∧
      (mergeDistress a d (some old)).isAsIs = (false || old.isAsIs)) ∧
    ((old.isDelinquent = true → (mergeDistress a d (some old)).isDelinquent = true) ∧
      (old.isPreForeclosure = true → (mergeDistress a d (some old)).isPreForeclosure = true) ∧
      (old.hasTaxLien = true → (mergeDistress a d (some old)).hasTaxLien = true) ∧
      (old.isAsIs = true → (mergeDistress a d (some old)).isAsIs = true)) ∧
    (∀ (a2 : AttomResult) (d2 : DatafinResult),
      flagsOf (mergeDistress a d (some (mergeDistress a2 d2 (some old)))) =
        flagsOf (mergeDistress a2 d2 (some (mergeDistress a d (some old))))) := by
  refine ⟨⟨rfl, rfl, rfl, (Bool.false_or _).symm⟩, ⟨?_, ?_, ?_, ?_⟩, ?_⟩
  · intro h
    simp [mergeDistress, h]
  · intro h
    simp [mergeDistress, h]
  · intro h
    simp [mergeDistress, h]
  · intro h
    simp [mergeDistress, h]
  · intro a2 d2
    simp only [mergeDistress, flagsOf, Prod.mk.injEq]
    refine ⟨?_, ?_, ?_, trivial⟩ <;>
      rw [Bool.or_left_comm]

/-- Witness for `distress_merge_is_or`: a pre-existing all-true flag set
survives a merge with an all-negative external result. -/
theorem distress_merge_is_or_witness :
    (mergeDistress ⟨false, false, none, none, none⟩ ⟨false, none⟩
      (some ⟨true, true, true, true, none, none⟩)).isDelinquent = true ∧
    (mergeDistress ⟨false, false, none, none, none⟩ ⟨false, none⟩
      (some ⟨true, true, true, true, none, none⟩)).hasTaxLien = true :=
  ⟨(distress_merge_is_or ⟨false, false, none, none, none⟩ ⟨false, none⟩
      ⟨true, true, true, true, none, none⟩).2.1.1 rfl,
    (distress_merge_is_or ⟨false, false, none, none, none⟩ ⟨false, none⟩
      ⟨true, true, true, true, none, none⟩).2.1.2.2.1 rfl⟩

/-! ### Persistence gate -/

/-- Shape of a surviving iteration of the phase-3 loop: the listing is
rescored and the save bit is exactly `dealScore > 50`. -/
theorem processListing_eq_some {f : Filters} {l : Listing} {r : Listing × Bool}
    (h : processListing f l = some r) :
    r.1 = {l with dealScore := some (scoreDeal l)} ∧
    r.2 = decide (50 < scoreDeal l) := by
  simp only [processListing] at h
  split_ifs at h
  rw [← Option.some.inj h]
  exact ⟨rfl, rfl⟩

/-- Claim C1 (amended): both save sites gate on the deal score alone.  In
the `POST /search` loop a surviving listing is persisted iff its recomputed
`scoreDeal` exceeds 50 — the valuation source is never consulted (the score
itself is invariant under changing it), and no `price/estimatedValue ≥ 0.4`
condition exists; in the pipeline save loop a property is saved iff its
stored `dealScore` exceeds 50. -/
theorem save_gate_is_score_only :
    (∀ (f : Filters) (l : Listing) (r : Listing × Bool),
      processListing f l = some r → (r.2 = true ↔ 50 < scoreDeal l)) ∧
    (∀ (l : Listing) (v : Option String),
      scoreDeal {l with valuationSource := v} = scoreDeal l) ∧
    (∀ (E : List Listing) (l : Listing),
      l ∈ pipelineSaves E ↔ (l ∈ E ∧ 50 < l.dealScore.getD 0)) := by
  refine ⟨?_, fun _ _ => rfl, ?_⟩
  · intro f l r h
    rw [(processListing_eq_some h).2]
    simp
  · intro E l
    simp [pipelineSaves]

/-- Claim C1 counterexample: the listing with recomputed deal score 80
(price ratio 0.3 < 0.75 gives +40, delinquency +30, tax lien +10), price
60000, estimated value 200000 (ratio 0.3 < 0.4) and the unverified
`ppsf_median` valuation source *is* persisted by the search loop, although
the spec's `isWorthSaving` gate would reject it. -/
theorem save_gate_cex :
    processListing {} worthSavingCex =
      some ({worthSavingCex with dealScore := some 80}, true) ∧
    worthSavingCex.valuationSource = some "ppsf_median" ∧
    worthSavingCex.price.getD 0 / worthSavingCex.marketMedian.getD 0 < 2/5 ∧
    isWorthSavingSpec worthSavingCex = false := by
  have hscore : scoreDeal worthSavingCex = 80 := by
    norm_num [scoreDeal, worthSavingCex, flagD, domGt]
  refine ⟨?_, rfl, by norm_num [worthSavingCex], ?_⟩
  · unfold processListing
    rw [if_neg (by simp [worthSavingCex]), if_neg (by simp [worthSavingCex]),
      if_neg (by simp [jsTruthyQ]), if_neg (by simp [jsTruthyQ]), hscore]
    norm_num
  · unfold isWorthSavingSpec
    rw [hscore]
    norm_num [worthSavingCex]
    refine ⟨⟨⟨?_, ?_⟩, ?_⟩, ?_⟩ <;> decide

/-- Witness for `save_gate_is_score_only` at the counterexample listing:
the surviving iteration saves it because its score 80 exceeds 50. -/
theorem save_gate_is_score_only_witness :
    (({worthSavingCex with dealScore := some 80}, true) : Listing × Bool).2 = true ↔
      50 < scoreDeal worthSavingCex :=
  save_gate_is_score_only.1 {} worthSavingCex _ save_gate_cex.1

/-! ### Missing coordinates fail fast -/

/-- Claim C8: a search request with a missing latitude or longitude returns
the 400 error payload before any pipeline work: zero fetch calls, no
enrichment candidates, nothing saved, no results. -/
theorem missing_coords_fail_fast (enrich : List Listing → List Listing)
    (pages : ℕ → List Listing × Bool) (lat lng : Option ℚ) (fo : Option Filters)
    (h : lat = none ∨ lng = none) :
    postSearch enrich pages lat lng fo =
      { error := some "latitude and longitude are required", fetchCalls := 0,
        enrichCandidates := [], saved := [], results := [], areaMedian := 0 } := by
  unfold postSearch
  rcases h with h | h <;> subst h
  · rw [if_pos (Or.inl (by simp [jsTruthyQ]))]
  · rw [if_pos (Or.inr (by simp [jsTruthyQ]))]

/-- Witness for `missing_coords_fail_fast`: a concrete request lacking the
latitude issues no fetch call and returns the error. -/
theorem missing_coords_fail_fast_witness :
    (postSearch (fun x => x) (fun _ => ([plainListing], false)) none (some 10) none).fetchCalls = 0 ∧
    (postSearch (fun x => x) (fun _ => ([plainListing], false)) none (some 10) none).error =
      some "latitude and longitude are required" ∧
    (postSearch (fun x => x) (fun _ => ([plainListing], false)) none (some 10) none).saved = [] := by
  rw [missing_coords_fail_fast (fun x => x) (fun _ => ([plainListing], false))
    none (some 10) none (Or.inl rfl)]
  exact ⟨rfl, rfl, rfl⟩

/-! ### Market-data positivity -/

theorem jsOrQ_some_ne {v y : ℚ} (h : v ≠ 0) : jsOrQ (some v) y = v := by
  simp [jsOrQ, h]

theorem jsOrQ_none (y : ℚ) : jsOrQ none y = y := rfl

/-- If every present chain component is zero-or-at-least-`c`, so is the chain. -/
theorem jsOrQ_zero_or_ge (c : ℚ) (o : Option ℚ) (y : ℚ)
    (ho : ∀ v, o = some v → (v = 0 ∨ c ≤ v)) (hy : y = 0 ∨ c ≤ y) :
    jsOrQ o y = 0 ∨ c ≤ jsOrQ o y := by
  cases o with
  | none => simpa [jsOrQ] using hy
  | some v =>
    simp only [jsOrQ]
    by_cases hv : v = 0
    · rw [if_pos hv]
      exact hy
    · rw [if_neg hv]
      rcases ho v rfl with h | h
      · exact absurd h hv
      · exact Or.inr h

theorem cmd_ppsf_zipType (L : List Listing) (k : String) :
    (computeMarketData L).ppsfMedians_zipType k =
      (if 3 ≤ (ppsfBucketBy L zipTypeKey k).length
        then some (trimmedMedian (ppsfBucketBy L zipTypeKey k)) else none) := rfl

theorem cmd_ppsf_zip (L : List Listing) (k : String) :
    (computeMarketData L).ppsfMedians_zip k =
      (if 3 ≤ (ppsfBucketBy L zipKey k).length
        then some (trimmedMedian (ppsfBucketBy L zipKey k)) else none) := rfl

theorem cmd_areaPpsf (L : List Listing) :
    (computeMarketData L).areaPpsfMedian = trimmedMedian (L.filterMap ppsfContrib) := rfl

theorem cmd_price_zipType (L : List Listing) (k : String) :
    (computeMarketData L).priceMedians_zipType k =
      (if 3 ≤ (priceBucketBy L zipTypeKey k).length
        then some (trimmedMedian (priceBucketBy L zipTypeKey k)) else none) := rfl

theorem cmd_price_zip (L : List Listing) (k : String) :
    (computeMarketData L).priceMedians_zip k =
      (if priceBucketBy L zipKey k = [] then none
        else some (trimmedMedian (priceBucketBy L zipKey k))) := rfl

theorem cmd_areaPrice (L : List Listing) :
    (computeMarketData L).areaPriceMedian = trimmedMedian (L.filterMap priceContrib) := rfl

/-- A ppsf contribution decomposes into its listing's positive price and area. -/
theorem ppsfContrib_eq_some {l : Listing} {x : ℚ} (h : ppsfContrib l = some x) :
    ∃ p s, l.price = some p ∧ 0 < p ∧ l.sqft = some s ∧ 0 < s ∧ x = p / s := by
  unfold ppsfContrib at h
  cases hp : l.price with
  | none => rw [hp] at h; exact Option.noConfusion h
  | some p =>
    cases hs : l.sqft with
    | none => rw [hp, hs] at h; exact Option.noConfusion h
    | some s =>
      rw [hp, hs] at h
      have h2 : (if 0 < p ∧ 0 < s then some (p / s) else none) = some x := h
      split_ifs at h2 with hc
      exact ⟨p, s, rfl, hc.1, rfl, hc.2, (Option.some.inj h2).symm⟩

/-- A price contribution is the listing's positive price. -/
theorem priceContrib_eq_some {l : Listing} {x : ℚ} (h : priceContrib l = some x) :
    l.price = some x ∧ 0 < x := by
  unfold priceContrib at h
  cases hp : l.price with
  | none => rw [hp] at h; exact Option.noConfusion h
  | some p =>
    rw [hp] at h
    have h2 : (if 0 < p then some p else none) = some x := h
    split_ifs at h2 with hc
    exact ⟨by rw [← Option.some.inj h2], (Option.some.inj h2) ▸ hc⟩

/-- Every sample in a price bucket is positive. -/
theorem priceBucketBy_pos (L : List Listing) (f : Listing → String) (k : String) :
    ∀ x ∈ priceBucketBy L f k, 0 < x := by
  intro x hx
  simp only [priceBucketBy, List.mem_filterMap] at hx
  obtain ⟨l, _, hl⟩ := hx
  split_ifs at hl
  exact (priceContrib_eq_some hl).2

/-- Under the sanity predicate every sample in a ppsf bucket is ≥ 1/2. -/
theorem ppsfBucketBy_ge_half {L : List Listing} (hsane : ∀ x ∈ L, ppsfSane x)
    (f : Listing → String) (k : String) :
    ∀ x ∈ ppsfBucketBy L f k, 1/2 ≤ x := by
  intro x hx
  simp only [ppsfBucketBy, List.mem_filterMap] at hx
  obtain ⟨l, hl, hc⟩ := hx
  split_ifs at hc
  obtain ⟨p, s, hp, hpp, hs, hsp, rfl⟩ := ppsfContrib_eq_some hc
  exact (hsane l hl p s hp hpp hs hsp).2

/-- Under the sanity predicate every area-wide ppsf sample is ≥ 1/2. -/
theorem ppsfAll_ge_half {L : List Listing} (hsane : ∀ x ∈ L, ppsfSane x) :
    ∀ x ∈ L.filterMap ppsfContrib, 1/2 ≤ x := by
  intro x hx
  obtain ⟨l, hl, hc⟩ := List.mem_filterMap.mp hx
  obtain ⟨p, s, hp, hpp, hs, hsp, rfl⟩ := ppsfContrib_eq_some hc
  exact (hsane l hl p s hp hpp hs hsp).2

/-- A reliable external estimate is present and positive. -/
theorem zestimate_pos_of_reliable {zo : Option ℚ} {l : Listing}
    (h : isZestimateReliable zo l = true) : ∃ z, zo = some z ∧ 0 < z := by
  cases zo with
  | none => exact absurd h (by simp [isZestimateReliable])
  | some z =>
    refine ⟨z, rfl, ?_⟩
    by_contra hc
    push_neg at hc
    simp only [isZestimateReliable] at h
    rw [if_pos hc] at h
    exact absurd h (by simp)

/-- For a listing of the working set with a positive price, the raw-price
fallback chain is positive (its own zip bucket always contains its price). -/
theorem priceChain_pos {L : List Listing} {l : Listing} (hl : l ∈ L) {p : ℚ}
    (hp : l.price = some p) (hppos : 0 < p) :
    0 < priceChain (computeMarketData L) l := by
  have hmem : p ∈ priceBucketBy L zipKey (zipKey l) := by
    simp only [priceBucketBy, List.mem_filterMap]
    refine ⟨l, hl, ?_⟩
    rw [if_pos rfl]
    unfold priceContrib
    rw [hp]
    show (if 0 < p then some p else none) = some p
    rw [if_pos hppos]
  have hBne : priceBucketBy L zipKey (zipKey l) ≠ [] := by
    intro hc
    rw [hc] at hmem
    exact absurd hmem (List.not_mem_nil p)
  have hBpos : 0 < trimmedMedian (priceBucketBy L zipKey (zipKey l)) :=
    trimmedMedian_pos hBne (priceBucketBy_pos L zipKey (zipKey l))
  unfold priceChain
  rw [cmd_price_zipType, cmd_price_zip, cmd_areaPrice]
  by_cases hA : 3 ≤ (priceBucketBy L zipTypeKey (zipTypeKey l)).length
  · rw [if_pos hA]
    have hAne : priceBucketBy L zipTypeKey (zipTypeKey l) ≠ [] := by
      intro hc
      rw [hc] at hA
      simp at hA
    have hApos := trimmedMedian_pos hAne (priceBucketBy_pos L zipTypeKey (zipTypeKey l))
    rw [jsOrQ_some_ne (ne_of_gt hApos)]
    exact hApos
  · rw [if_neg hA, jsOrQ_none, if_neg hBne, jsOrQ_some_ne (ne_of_gt hBpos)]
    exact hBpos

/-- Under the sanity predicate a positive ppsf chain is at least 1/2. -/
theorem ppsfChain_ge_half {L : List Listing} {l : Listing}
    (hsane : ∀ x ∈ L, ppsfSane x)
    (h : 0 < ppsfChain (computeMarketData L) l) :
    1/2 ≤ ppsfChain (computeMarketData L) l := by
  have key : ppsfChain (computeMarketData L) l = 0 ∨
      1/2 ≤ ppsfChain (computeMarketData L) l := by
    unfold ppsfChain
    rw [cmd_ppsf_zipType, cmd_ppsf_zip, cmd_areaPpsf]
    apply jsOrQ_zero_or_ge
    · intro v hv
      split_ifs at hv with hA
      right
      have hAne : ppsfBucketBy L zipTypeKey (zipTypeKey l) ≠ [] := by
        intro hc
        rw [hc] at hA
        simp at hA
      rw [← Option.some.inj hv]
      exact trimmedMedian_ge hAne (ppsfBucketBy_ge_half hsane zipTypeKey (zipTypeKey l))
    · apply jsOrQ_zero_or_ge
      · intro v hv
        split_ifs at hv with hB
        right
        have hBne : ppsfBucketBy L zipKey (zipKey l) ≠ [] := by
          intro hc
          rw [hc] at hB
          simp at hB
        rw [← Option.some.inj hv]
        exact trimmedMedian_ge hBne (ppsfBucketBy_ge_half hsane zipKey (zipKey l))
      · by_cases hC : L.filterMap ppsfContrib = []
        · left
          rw [hC]
          rfl
        · right
          exact trimmedMedian_ge hC (ppsfAll_ge_half hsane)
  rcases key with h0 | h12
  · rw [h0] at h
    exact absurd h (lt_irrefl 0)
  · exact h12

/-- Every listing of the working set with a positive price receives a
positive market-value estimate (under the ppsf sanity predicate). -/
theorem estimateMarketValue_pos (L : List Listing) (l : Listing) (hl : l ∈ L)
    (hsane : ∀ x ∈ L, ppsfSane x) (p : ℚ) (hp : l.price = some p) (hppos : 0 < p) :
    0 < estimateMarketValue l (computeMarketData L) := by
  unfold estimateMarketValue
  by_cases hz : isZestimateReliable l.zestimate l = true
  · rw [if_pos hz]
    obtain ⟨z, hzo, hzpos⟩ := zestimate_pos_of_reliable hz
    rw [hzo, Option.getD_some]
    exact hzpos
  · rw [if_neg hz]
    have hfb := priceChain_pos hl hp hppos
    cases hs : l.sqft with
    | none => exact hfb
    | some s =>
      show 0 < if 0 < s then
          (if 0 < ppsfChain (computeMarketData L) l
            then ppsfEstimate (computeMarketData L) l s
            else priceChain (computeMarketData L) l)
        else priceChain (computeMarketData L) l
      by_cases hsp : 0 < s
      · rw [if_pos hsp]
        by_cases hpp : 0 < ppsfChain (computeMarketData L) l
        · rw [if_pos hpp]
          have hhalf := ppsfChain_ge_half hsane hpp
          have hs1 : 1 ≤ s := (hsane l hl p s hp hppos hs hsp).1
          have hmul : 1/2 ≤ ppsfChain (computeMarketData L) l * s := by nlinarith
          have hround : 1 ≤ round (ppsfChain (computeMarketData L) l * s) := by
            rw [round_eq, Int.le_floor]
            push_cast
            linarith
          unfold ppsfEstimate
          exact_mod_cast lt_of_lt_of_le Int.zero_lt_one hround
        · rw [if_neg hpp]
          exact hfb
      · rw [if_neg hsp]
        exact hfb

/-! ### The search handler -/

/-- Everything the fetch loop collects comes from some fetched page. -/
theorem fetchGo_mem (pages : ℕ → List Listing × Bool) (f : Filters) :
    ∀ (fuel page : ℕ) (acc : List Listing) (calls : ℕ) (l : Listing),
      l ∈ (fetchGo pages f fuel page acc calls).1 →
      l ∈ acc ∨ ∃ i, l ∈ (pages i).1 := by
  intro fuel
  induction fuel with
  | zero => exact fun page acc calls l h => Or.inl h
  | succ n ih =>
    intro page acc calls l h
    rw [fetchGo] at h
    rcases hpg : pages page with ⟨raw, more⟩
    rw [hpg] at h
    have hsplit : ∀ x : Listing, x ∈ acc ++ raw.filter (prefilterListing f) →
        x ∈ acc ∨ ∃ i, x ∈ (pages i).1 := by
      intro x hx
      rcases List.mem_append.mp hx with hx | hx
      · exact Or.inl hx
      · refine Or.inr ⟨page, ?_⟩
        rw [hpg]
        exact List.mem_of_mem_filter hx
    have h2 : l ∈ (if (!hasActiveFilter f ||
          decide (20 ≤ (acc ++ raw.filter (prefilterListing f)).length)) = true
        then (acc ++ raw.filter (prefilterListing f), calls + 1)
        else if (!more) = true then (acc ++ raw.filter (prefilterListing f), calls + 1)
        else fetchGo pages f n (page + 1) (acc ++ raw.filter (prefilterListing f))
          (calls + 1)).1 := h
    split_ifs at h2
    · exact hsplit l h2
    · exact hsplit l h2
    · rcases ih (page + 1) (acc ++ raw.filter (prefilterListing f)) (calls + 1)
        l h2 with h3 | h3
      · exact hsplit l h3
      · exact Or.inr h3

/-- Claim C7: when the active filter set contains no delinquent or taxLien
distress filter, a search run invokes no Tier-1 enrichment (the candidate
batch is empty and the outcome does not depend on the enrichment function at
all), every returned listing with positive price carries a populated,
positive market-value estimate (under the ppsf sanity predicate on the raw
listings), and the result list is sorted by dealScore descending. -/
theorem search_without_distress_filter
    (enrich g : List Listing → List Listing) (pages : ℕ → List Listing × Bool)
    (lat lng : Option ℚ) (fo : Option Filters)
    (hlat : jsTruthyQ lat = true) (hlng : jsTruthyQ lng = true)
    (hd1 : (fo.getD {}).distressType ≠ some "delinquent")
    (hd2 : (fo.getD {}).distressType ≠ some "taxLien")
    (hsane : ∀ i, ∀ l ∈ (pages i).1, ppsfSane l) :
    (postSearch enrich pages lat lng fo).enrichCandidates = [] ∧
    postSearch enrich pages lat lng fo = postSearch g pages lat lng fo ∧
    (∀ l ∈ (postSearch enrich pages lat lng fo).results,
      ∀ p, l.price = some p → 0 < p → ∃ v, l.marketMedian = some v ∧ 0 < v) ∧
    List.Sorted scoreGe (postSearch enrich pages lat lng fo).results := by
  have hcond : ¬(¬jsTruthyQ lat = true ∨ ¬jsTruthyQ lng = true) := by
    rw [hlat, hlng]
    simp
  have hne : ¬((fo.getD {}).distressType = some "delinquent" ∨
      (fo.getD {}).distressType = some "taxLien") := by
    rintro (h | h)
    · exact hd1 h
    · exact hd2 h
  have hout : ∀ e : List Listing → List Listing,
      postSearch e pages lat lng fo =
      { error := none
        fetchCalls := (fetchGo pages (fo.getD {}) 3 1 [] 0).2
        enrichCandidates := []
        saved := ((((fetchGo pages (fo.getD {}) 3 1 [] 0).1.map
          (fun l => {l with marketMedian := some (estimateMarketValue l
            (computeMarketData (fetchGo pages (fo.getD {}) 3 1 [] 0).1))})).filterMap
          (processListing (fo.getD {}))).filter (·.2)).map Prod.fst
        results := sortByScoreDesc ((((fetchGo pages (fo.getD {}) 3 1 [] 0).1.map
          (fun l => {l with marketMedian := some (estimateMarketValue l
            (computeMarketData (fetchGo pages (fo.getD {}) 3 1 [] 0).1))})).filterMap
          (processListing (fo.getD {}))).map Prod.fst)
        areaMedian := (computeMarketData (fetchGo pages (fo.getD {}) 3 1 [] 0).1).areaPriceMedian } := by
    intro e
    simp only [postSearch]
    rw [if_neg hcond, if_neg hne, if_neg hne]
  refine ⟨?_, ?_, ?_, ?_⟩
  · rw [hout enrich]
  · rw [hout enrich, hout g]
  · rw [hout enrich]
    intro l hl p hp hppos
    have hl2 := (List.mem_insertionSort scoreGe).mp hl
    obtain ⟨pr, hpr, rfl⟩ := List.mem_map.mp hl2
    obtain ⟨l1, hl1, hproc⟩ := List.mem_filterMap.mp hpr
    obtain ⟨l0, hl0, rfl⟩ := List.mem_map.mp hl1
    rw [(processListing_eq_some hproc).1]
    rw [(processListing_eq_some hproc).1] at hp
    have hsaneAll : ∀ x ∈ (fetchGo pages (fo.getD {}) 3 1 [] 0).1, ppsfSane x := by
      intro x hx
      rcases fetchGo_mem pages (fo.getD {}) 3 1 [] 0 x hx with hx2 | ⟨i, hi⟩
      · exact absurd hx2 (List.not_mem_nil x)
      · exact hsane i x hi
    have hp0 : l0.price = some p := hp
    exact ⟨estimateMarketValue l0 (computeMarketData (fetchGo pages (fo.getD {}) 3 1 [] 0).1),
      rfl, estimateMarketValue_pos _ l0 hl0 hsaneAll p hp0 hppos⟩
  · rw [hout enrich]
    exact List.sorted_insertionSort scoreGe _

/-- Witness for `search_without_distress_filter`: a search over one plain
listing with no filters enriches nothing and returns a sorted result list. -/
theorem search_without_distress_filter_witness :
    (postSearch (fun x => x) (fun _ => ([plainListing], false))
      (some 25) (some (-80)) none).enrichCandidates = [] ∧
    List.Sorted scoreGe (postSearch (fun x => x) (fun _ => ([plainListing], false))
      (some 25) (some (-80)) none).results := by
  have h := search_without_distress_filter (fun x => x) (fun x => x)
    (fun _ => ([plainListing], false)) (some 25) (some (-80)) none
    (by norm_num [jsTruthyQ]) (by norm_num [jsTruthyQ])
    (by simp) (by simp) ?_
  · exact ⟨h.1, h.2.2.2⟩
  · intro i l hl
    simp only [List.mem_singleton] at hl
    subst hl
    intro p s hp hppos hs hsp
    exact absurd hs (by simp [plainListing])

/-! ### Hot-deal alert hook -/

/-- Once `alertSent` is set, a run of further upserts fires no alert. -/
theorem runSaves_alertSent_zero (scores : List ℕ) :
    ∀ st : PropertyDoc, st.alertSent = true → runSaves st scores = (st, 0) ∨
      (runSaves st scores).2 = 0 := by
  induction scores with
  | nil => intro st _; exact Or.inl rfl
  | cons s rest ih =>
    intro st h
    right
    have hstep : applySave st s = ({st with dealScore := s}, false) := by
      unfold applySave postSaveHook
      rw [if_neg]
      intro hc
      rw [h] at hc
      exact absurd hc.2 (by simp)
    show (let step := applySave st s; let tail := runSaves step.1 rest;
      (tail.1, (if step.2 then 1 else 0) + tail.2)).2 = 0
    rw [hstep]
    rcases ih {st with dealScore := s} h with h2 | h2
    · simp [h2]
    · simp [h2]

/-- Claim C10: the hook fires exactly when `dealScore > 80` and `alertSent`
is false, it sets `alertSent` in the same step, and over any sequence of
upserts of the same record (each rewriting `dealScore` but never clearing
`alertSent`) starting from an un-alerted document, at most one alert is
ever sent. -/
theorem alert_fires_at_most_once :
    (∀ doc : PropertyDoc,
      ((postSaveHook doc).2 = true ↔ (80 < doc.dealScore ∧ doc.alertSent = false)) ∧
      ((postSaveHook doc).2 = true → (postSaveHook doc).1.alertSent = true)) ∧
    (∀ (scores : List ℕ) (st : PropertyDoc), st.alertSent = false →
      (runSaves st scores).2 ≤ 1) := by
  constructor
  · intro doc
    by_cases h : 80 < doc.dealScore ∧ doc.alertSent = false
    · constructor
      · rw [postSaveHook, if_pos h]
        simp [h]
      · intro _
        rw [postSaveHook, if_pos h]
    · constructor
      · rw [postSaveHook, if_neg h]
        simp [h]
      · intro hc
        rw [postSaveHook, if_neg h] at hc
        exact absurd hc (by simp)
  · intro scores
    induction scores with
    | nil => intro st _; exact Nat.zero_le 1
    | cons s rest ih =>
      intro st hst
      show (let step := applySave st s; let tail := runSaves step.1 rest;
        (tail.1, (if step.2 then 1 else 0) + tail.2)).2 ≤ 1
      by_cases hc : 80 < s ∧ st.alertSent = false
      · have hstep : applySave st s = ({st with dealScore := s, alertSent := true}, true) := by
          unfold applySave postSaveHook
          rw [if_pos (by exact ⟨hc.1, hst⟩)]
        rw [hstep]
        rcases runSaves_alertSent_zero rest {st with dealScore := s, alertSent := true} rfl
          with h2 | h2
        · simp [h2]
        · simp [h2]
      · have hstep : applySave st s = ({st with dealScore := s}, false) := by
          unfold applySave postSaveHook
          rw [if_neg]
          intro hcc
          exact hc ⟨hcc.1, hst⟩
        rw [hstep]
        simpa using ih {st with dealScore := s} hst

/-- Witness for `alert_fires_at_most_once`: a document saved with score 90
fires the alert, and the save sequence 90, 95, 100 from a fresh record
fires at most one alert. -/
theorem alert_fires_at_most_once_witness :
    (postSaveHook ⟨90, false⟩).2 = true ∧
    (runSaves ⟨0, false⟩ [90, 95, 100]).2 ≤ 1 :=
  ⟨(alert_fires_at_most_once.1 ⟨90, false⟩).1.mpr ⟨by norm_num, rfl⟩,
    alert_fires_at_most_once.2 [90, 95, 100] ⟨0, false⟩ rfl⟩

end RealDeal
